import Mathlib

/-!
A verification development for the S1MCPClient connection/protocol engine
(`src/protocol.py`, `src/tcp_client.py`, `src/models/*.py`).

Modelling conventions:
* Python's JSON values are embedded as the mutual inductive `Json`;
  `Json.null` plays the role of both JSON `null` and Python `None` (as
  `json.loads` / `dict.get` conflate them).  Numbers are modelled as
  integers (the engine only exchanges integer ids and codes; floats are
  outside the embedding).  Arrays and objects use the mutual list types
  `JsonItems` / `JsonMembers` (objects are insertion-ordered association
  lists, as in a Python `dict`).
* Wire bytes are `List Nat` (each < 256 by construction).  Text payloads are
  restricted to the ASCII slice: `json.dumps(..., ensure_ascii=False)` /
  `bytes.decode("utf-8")` are modelled by `Char.toNat` / `Char.ofNat` with an
  all-bytes-below-128 check standing in for UTF-8 decoding.
* `json.dumps` is modelled by `dumps` (compact one-line output with the
  default `", "` / `": "` separators); `json.loads` is modelled by
  `jsonParse`, a recursive-descent reader of exactly that canonical format.
* Exceptions are values of `PyExc`; `Except PyExc` replaces raising.
* pydantic field validation (the `Response`/`ErrorResponse` models of
  `src/models/response.py`) is modelled by `validateInt` / `validateStr` /
  `validateOptDict`: an `int` field accepts an integer or an integer-literal
  string, a `str` field accepts a string, an `Optional[Dict]` field accepts
  `null`/absent or an object; anything else is a `ValidationError`
  (`PyExc.valueError`).
* The socket is a deterministic script inside `TcpState`: incoming bytes are
  a single stream (`recv n` yields the next up-to-`n` available bytes), each
  `_write_message` consumes one entry of `writeOk`, each physical connect
  attempt one entry of `connectOk` (an empty script means success).  Threads,
  locks and the heartbeat daemon are outside the (single-threaded) embedding;
  the reentrant-lock acquisitions are no-ops here.
-/

mutual
/-- JSON values (Python objects after `json.loads`): `null` is Python `None`. -/
inductive Json where
  | null : Json
  | bool (b : Bool) : Json
  | int (n : Int) : Json
  | str (s : List Char) : Json
  | arr (xs : JsonItems) : Json
  | obj (kvs : JsonMembers) : Json
deriving DecidableEq

/-- The elements of a JSON array. -/
inductive JsonItems where
  | nil : JsonItems
  | cons (x : Json) (xs : JsonItems) : JsonItems
deriving DecidableEq

/-- The members of a JSON object, in insertion order. -/
inductive JsonMembers where
  | nil : JsonMembers
  | cons (k : List Char) (v : Json) (kvs : JsonMembers) : JsonMembers
deriving DecidableEq
end

/-- Python truthiness of a JSON value (`if json_dict.get("error"):`):
`None`, `False`, `0`, `""`, `[]` and `{}` are falsy, everything else truthy. -/
def Json.truthy : Json → Bool
  | .null => false
  | .bool b => b
  | .int n => decide (n ≠ 0)
  | .str s => decide (s ≠ [])
  | .arr xs => decide (xs ≠ .nil)
  | .obj kvs => decide (kvs ≠ .nil)

/-- Binding of a key in a Python dict modelled as an insertion-ordered
association list: later insertions shadow earlier ones, so the last binding
wins (as when `json.loads` meets a repeated key). -/
def JsonMembers.lookupLast : JsonMembers → List Char → Option Json
  | .nil, _ => none
  | .cons k' v rest, k =>
    match rest.lookupLast k with
    | some w => some w
    | none => if k' = k then some v else none

/-- Python `d.get(k, default)` on a JSON object. -/
def dictGet (kvs : JsonMembers) (k : List Char) (dflt : Json) : Json :=
  match kvs.lookupLast k with
  | some v => v
  | none => dflt

/-- The decimal digit character for `d < 10`. -/
def digitChar (d : Nat) : Char := Char.ofNat (48 + d)

/-- Fuelled worker for `natChars`; the fuel is an upper bound on the number
to print, so it never runs out. -/
def natCharsAux : Nat → Nat → List Char
  | 0, _ => []
  | fuel + 1, n =>
    if n < 10 then [digitChar n]
    else natCharsAux fuel (n / 10) ++ [digitChar (n % 10)]

/-- Decimal digits of a natural number, most significant first
(`repr(n)` for a nonnegative Python int). -/
def natChars (n : Nat) : List Char := natCharsAux (n + 1) n

/-- Decimal text of a Python integer (`repr(i)`), used by `json.dumps`. -/
def intChars (i : Int) : List Char :=
  if i < 0 then '-' :: natChars i.natAbs else natChars i.natAbs

/-- The string escaping performed by `json.dumps(..., ensure_ascii=False)`
on the character range we model (no control characters): `"` and `\`
are backslash-escaped, everything else passes through. -/
def escapeChars : List Char → List Char
  | [] => []
  | c :: s => if c = '"' ∨ c = '\\' then '\\' :: c :: escapeChars s else c :: escapeChars s

/-- The `"key"` text of an object member: a quoted, escaped string. -/
def keyText (k : List Char) : List Char :=
  '"' :: (escapeChars k ++ ['"'])

mutual
/-- `json.dumps(v, ensure_ascii=False)` with the default separators
`", "` and `": "` (compact single-line output). -/
def dumps : Json → List Char
  | .null => "null".data
  | .bool true => "true".data
  | .bool false => "false".data
  | .int i => intChars i
  | .str s => '"' :: (escapeChars s ++ ['"'])
  | .arr .nil => ['[', ']']
  | .arr (.cons x xs) => '[' :: (dumps x ++ (dumpsTail xs ++ [']']))
  | .obj .nil => ['{', '}']
  | .obj (.cons k v kvs) =>
    '{' :: (keyText k ++ ':' :: ' ' :: (dumps v ++ (dumpsMTail kvs ++ ['}'])))

/-- Remaining array elements, each preceded by the `", "` separator. -/
def dumpsTail : JsonItems → List Char
  | .nil => []
  | .cons x xs => ',' :: ' ' :: (dumps x ++ dumpsTail xs)

/-- Remaining object members, each preceded by the `", "` separator. -/
def dumpsMTail : JsonMembers → List Char
  | .nil => []
  | .cons k v kvs => ',' :: ' ' :: (keyText k ++ ':' :: ' ' :: (dumps v ++ dumpsMTail kvs))
end

example : dumps (.obj (.cons "id".data (.int 1) (.cons "result".data .null .nil))) =
    "\x7b\"id\": 1, \"result\": null\x7d".data := by decide

/-- Decimal digit predicate (`'0'` to `'9'`). -/
def isDigitChar (c : Char) : Bool := 48 ≤ c.toNat && c.toNat ≤ 57

/-- Numeric value of a run of decimal digits (most significant first). -/
def digitsVal (l : List Char) : Nat :=
  l.foldl (fun a c => a * 10 + (c.toNat - 48)) 0

/-- Read the body of a JSON string up to its closing quote, undoing the
`\"` / `\\` escapes; raw control characters and other escapes are rejected
(as `json.loads` rejects raw control characters; the other escape forms are
outside the modelled canonical format). -/
def parseStrBody : List Char → Option (List Char × List Char)
  | [] => none
  | '"' :: r => some ([], r)
  | '\\' :: r =>
    match r with
    | [] => none
    | d :: r' =>
      if d = '"' ∨ d = '\\' then
        match parseStrBody r' with
        | some (s, rest) => some (d :: s, rest)
        | none => none
      else none
  | c :: r =>
    if c.toNat < 32 then none
    else
      match parseStrBody r with
      | some (s, rest) => some (c :: s, rest)
      | none => none

/-- Read a nonempty run of decimal digits as a natural number. -/
def parseNatNum (s : List Char) : Option (Nat × List Char) :=
  let ds := s.takeWhile isDigitChar
  if ds = [] then none else some (digitsVal ds, s.dropWhile isDigitChar)

mutual
/-- Fuelled recursive-descent reader of one JSON value, the model of
`json.loads` on the canonical format `dumps` emits.  Numbers are read by
maximal munch, so callers must not continue with a digit. -/
def parseVal : Nat → List Char → Option (Json × List Char)
  | 0, _ => none
  | _ + 1, [] => none
  | fuel + 1, c :: r =>
    if c = 'n' then
      match r with
      | 'u' :: 'l' :: 'l' :: r' => some (.null, r')
      | _ => none
    else if c = 't' then
      match r with
      | 'r' :: 'u' :: 'e' :: r' => some (.bool true, r')
      | _ => none
    else if c = 'f' then
      match r with
      | 'a' :: 'l' :: 's' :: 'e' :: r' => some (.bool false, r')
      | _ => none
    else if c = '"' then
      match parseStrBody r with
      | some (s, rest) => some (.str s, rest)
      | none => none
    else if c = '[' then
      match r with
      | ']' :: r' => some (.arr .nil, r')
      | _ =>
        match parseElems fuel r with
        | some (xs, rest) => some (.arr xs, rest)
        | none => none
    else if c = '{' then
      match r with
      | '}' :: r' => some (.obj .nil, r')
      | _ =>
        match parseMembers fuel r with
        | some (kvs, rest) => some (.obj kvs, rest)
        | none => none
    else if c = '-' then
      match parseNatNum r with
      | some (n, rest) => some (.int (-(n : Int)), rest)
      | none => none
    else if isDigitChar c then
      match parseNatNum (c :: r) with
      | some (n, rest) => some (.int (n : Int), rest)
      | none => none
    else none

/-- Read the elements of a nonempty array body, ended by `]`,
separated by the canonical `", "`. -/
def parseElems : Nat → List Char → Option (JsonItems × List Char)
  | 0, _ => none
  | fuel + 1, s =>
    match parseVal fuel s with
    | some (v, r) =>
      match r with
      | ']' :: r' => some (.cons v .nil, r')
      | ',' :: ' ' :: r2 =>
        match parseElems fuel r2 with
        | some (xs, rest) => some (.cons v xs, rest)
        | none => none
      | _ => none
    | none => none

/-- Read the members of a nonempty object body, ended by `}`, with the
canonical `": "` and `", "` separators. -/
def parseMembers : Nat → List Char → Option (JsonMembers × List Char)
  | 0, _ => none
  | fuel + 1, s =>
    match s with
    | '"' :: r =>
      match parseStrBody r with
      | some (k, r1) =>
        match r1 with
        | ':' :: ' ' :: r2 =>
          match parseVal fuel r2 with
          | some (v, r3) =>
            match r3 with
            | '}' :: r4 => some (.cons k v .nil, r4)
            | ',' :: ' ' :: r5 =>
              match parseMembers fuel r5 with
              | some (kvs, rest) => some (.cons k v kvs, rest)
              | none => none
            | _ => none
          | none => none
        | _ => none
      | none => none
    | _ => none
end

/-- The model of `json.loads`: parse one value and require the whole
input to be consumed. -/
def jsonParse (s : List Char) : Option Json :=
  match parseVal (s.length + 1) s with
  | some (v, []) => some v
  | _ => none

example : jsonParse "\x7b\"id\": 1, \"result\": null\x7d".data =
    some (.obj (.cons "id".data (.int 1) (.cons "result".data .null .nil))) := by decide
example : jsonParse "\x7b\"a\": [1, -25, \"x\\\"y\"], \"b\": \x7b\x7d\x7d".data =
    some (.obj (.cons "a".data (.arr (.cons (.int 1) (.cons (.int (-25))
      (.cons (.str "x\"y".data) .nil)))) (.cons "b".data (.obj .nil) .nil))) := by decide
example : jsonParse "tru".data = none := by decide
example : (jsonParse (dumps (.arr (.cons (.bool true) (.cons (.str "ab".data) .nil))))) =
    some (.arr (.cons (.bool true) (.cons (.str "ab".data) .nil))) := by decide

/-! ### Well-formedness for the printable ASCII slice of the embedding -/

/-- A string is in the modelled character range: printable ASCII
(no control characters, which `json.dumps` would `\u`-escape, and
no non-ASCII, which the byte layer does not model). -/
def WfStr (s : List Char) : Prop := ∀ c ∈ s, 32 ≤ c.toNat ∧ c.toNat < 128

mutual
/-- A JSON value within the modelled slice: every string printable ASCII. -/
inductive WfJson : Json → Prop where
  | null : WfJson .null
  | bool (b : Bool) : WfJson (.bool b)
  | int (n : Int) : WfJson (.int n)
  | str (s : List Char) (h : WfStr s) : WfJson (.str s)
  | arr (xs : JsonItems) (h : WfItems xs) : WfJson (.arr xs)
  | obj (kvs : JsonMembers) (h : WfMembers kvs) : WfJson (.obj kvs)

/-- All elements well-formed. -/
inductive WfItems : JsonItems → Prop where
  | nil : WfItems .nil
  | cons (x : Json) (xs : JsonItems) (hx : WfJson x) (hxs : WfItems xs) :
      WfItems (.cons x xs)

/-- All keys printable ASCII and all values well-formed. -/
inductive WfMembers : JsonMembers → Prop where
  | nil : WfMembers .nil
  | cons (k : List Char) (v : Json) (kvs : JsonMembers) (hk : WfStr k)
      (hv : WfJson v) (hkvs : WfMembers kvs) : WfMembers (.cons k v kvs)
end

/-! ### Decimal printing round-trip -/

/-- On sufficient fuel, `natCharsAux` yields a nonempty all-digit string whose
numeric value is the number printed. -/
theorem natCharsAux_spec :
    ∀ n fuel, n < fuel →
      natCharsAux fuel n ≠ [] ∧ (∀ c ∈ natCharsAux fuel n, isDigitChar c = true) ∧
        digitsVal (natCharsAux fuel n) = n := by
  intro n
  induction n using Nat.strong_induction_on with
  | _ n ih =>
    intro fuel hfuel
    match fuel, hfuel with
    | f + 1, hfuel =>
      by_cases h10 : n < 10
      · have htn : (digitChar n).toNat = 48 + n := by
          unfold digitChar; interval_cases n <;> decide
        refine ⟨by simp [natCharsAux, h10], ?_, ?_⟩
        · intro c hc
          simp [natCharsAux, h10] at hc
          subst hc
          simp [isDigitChar, htn]
          omega
        · simp [natCharsAux, h10, digitsVal, htn]
      · have hdiv : n / 10 < n := Nat.div_lt_self (by omega) (by omega)
        have hdivf : n / 10 < f := by omega
        obtain ⟨hne, hdig, hval⟩ := ih (n / 10) hdiv f hdivf
        have hmod : (digitChar (n % 10)).toNat = 48 + n % 10 := by
          have : n % 10 < 10 := Nat.mod_lt _ (by omega)
          unfold digitChar; interval_cases h : n % 10 <;> simp_all
        refine ⟨by simp [natCharsAux, h10], ?_, ?_⟩
        · intro c hc
          simp [natCharsAux, h10] at hc
          rcases hc with hc | hc
          · exact hdig c hc
          · subst hc; simp [isDigitChar, hmod]; omega
        · have : digitsVal (natCharsAux f (n / 10) ++ [digitChar (n % 10)]) =
              digitsVal (natCharsAux f (n / 10)) * 10 + ((digitChar (n % 10)).toNat - 48) := by
            simp [digitsVal, List.foldl_append]
          simp [natCharsAux, h10, this, hval, hmod]
          omega

/-- `natChars` is nonempty, all digits, and evaluates back to its argument. -/
theorem natChars_spec (n : Nat) :
    natChars n ≠ [] ∧ (∀ c ∈ natChars n, isDigitChar c = true) ∧
      digitsVal (natChars n) = n :=
  natCharsAux_spec n (n + 1) (Nat.lt_succ_self n)

/-- A list may continue with something a maximal-munch digit scan stops at. -/
def notDigitHead : List Char → Prop
  | [] => True
  | c :: _ => isDigitChar c = false

/-- `takeWhile`/`dropWhile` split an all-satisfying block from a
continuation whose head fails the predicate. -/
theorem takeWhile_dropWhile_append {p : Char → Bool} :
    ∀ (l rest : List Char), (∀ c ∈ l, p c = true) →
      (∀ c t, rest = c :: t → p c = false) →
      (l ++ rest).takeWhile p = l ∧ (l ++ rest).dropWhile p = rest := by
  intro l
  induction l with
  | nil =>
    intro rest _ hrest
    match rest with
    | [] => simp
    | c :: t =>
      have := hrest c t rfl
      simp_all [List.takeWhile, List.dropWhile]
  | cons a l ih =>
    intro rest hall hrest
    have ha : p a = true := hall a (by simp)
    have := ih rest (fun c hc => hall c (by simp [hc])) hrest
    simp_all [List.takeWhile, List.dropWhile]

/-- Reading digits after `natChars n` recovers `n` and the continuation. -/
theorem parseNatNum_natChars (n : Nat) (rest : List Char) (h : notDigitHead rest) :
    parseNatNum (natChars n ++ rest) = some (n, rest) := by
  obtain ⟨hne, hdig, hval⟩ := natChars_spec n
  have hrest : ∀ c t, rest = c :: t → isDigitChar c = false := by
    intro c t hct; subst hct; exact h
  obtain ⟨htake, hdrop⟩ := takeWhile_dropWhile_append (natChars n) rest hdig hrest
  simp [parseNatNum, htake, hdrop, hne, hval]

/-- A digit character is distinct from any non-digit character. -/
theorem ne_of_not_digit {c d : Char} (h : isDigitChar c = true)
    (hd : isDigitChar d = false) : c ≠ d := by
  intro he; subst he; rw [h] at hd; exact Bool.noConfusion hd

/-- The first character `dumps` emits identifies the value's kind. -/
theorem dumps_head (v : Json) :
    ∃ c t, dumps v = c :: t ∧
      (c = 'n' ∨ c = 't' ∨ c = 'f' ∨ c = '"' ∨ c = '[' ∨ c = '{' ∨ c = '-' ∨
        isDigitChar c = true) := by
  cases v with
  | null => exact ⟨'n', _, rfl, by simp⟩
  | bool b =>
    cases b with
    | false => exact ⟨'f', _, rfl, by simp⟩
    | true => exact ⟨'t', _, rfl, by simp⟩
  | int i =>
    show ∃ c t, intChars i = c :: t ∧ _
    obtain ⟨hne, hdig, -⟩ := natChars_spec i.natAbs
    by_cases hneg : i < 0
    · exact ⟨'-', natChars i.natAbs, by simp [intChars, hneg], by simp⟩
    · rcases hl : natChars i.natAbs with - | ⟨c, t⟩
      · exact absurd hl hne
      · refine ⟨c, t, by simp [intChars, hneg, hl], ?_⟩
        have := hdig c (by simp [hl])
        simp [this]
  | str s => exact ⟨'"', _, rfl, by simp⟩
  | arr xs =>
    cases xs with
    | nil => exact ⟨'[', _, rfl, by simp⟩
    | cons x xs => exact ⟨'[', _, rfl, by simp⟩
  | obj kvs =>
    cases kvs with
    | nil => exact ⟨'{', _, rfl, by simp⟩
    | cons k v kvs => exact ⟨'{', _, rfl, by simp⟩

/-- `dumps` output is never empty. -/
theorem dumps_len_pos (v : Json) : 1 ≤ (dumps v).length := by
  obtain ⟨c, t, hct, -⟩ := dumps_head v
  simp [hct]

/-- An array-body continuation starts with `,` or `]`, never a digit. -/
theorem notDigitHead_tail (xs : JsonItems) (rest : List Char) :
    notDigitHead (dumpsTail xs ++ ']' :: rest) := by
  cases xs <;> simp [dumpsTail, notDigitHead, isDigitChar]

/-- An object-body continuation starts with `,` or `}`, never a digit. -/
theorem notDigitHead_mtail (kvs : JsonMembers) (rest : List Char) :
    notDigitHead (dumpsMTail kvs ++ '}' :: rest) := by
  cases kvs <;> simp [dumpsMTail, notDigitHead, isDigitChar]

/-- Reading a string body after escaping recovers the original characters. -/
theorem parseStrBody_escape :
    ∀ (s rest : List Char), WfStr s →
      parseStrBody (escapeChars s ++ '"' :: rest) = some (s, rest) := by
  intro s
  induction s with
  | nil => intro rest _; simp [escapeChars, parseStrBody]
  | cons c s ih =>
    intro rest hwf
    have hc := hwf c (by simp)
    have hs : WfStr s := fun d hd => hwf d (by simp [hd])
    by_cases hesc : c = '"' ∨ c = '\\'
    · simp [escapeChars, hesc, parseStrBody, ih rest hs]
    · have h1 : ¬ c = '"' := fun h => hesc (Or.inl h)
      have h2 : ¬ c = '\\' := fun h => hesc (Or.inr h)
      have h3 : ¬ c.toNat < 32 := by omega
      simp [escapeChars, hesc, parseStrBody, h1, h2, h3, ih rest hs]

/-! ### Parsing canonical output (round-trip core) -/

/-- No printed head character opens a closing bracket. -/
theorem head_ne_close {c : Char}
    (h : c = 'n' ∨ c = 't' ∨ c = 'f' ∨ c = '"' ∨ c = '[' ∨ c = '{' ∨ c = '-' ∨
      isDigitChar c = true) : c ≠ ']' ∧ c ≠ '}' := by
  rcases h with h | h | h | h | h | h | h | h
  all_goals first
    | (subst h; exact ⟨by decide, by decide⟩)
    | exact ⟨ne_of_not_digit h (by decide), ne_of_not_digit h (by decide)⟩

/-- Unfolding `parseVal` on an array opener followed by a non-`]` character:
control passes to `parseElems`. -/
theorem parseVal_bracket (f : Nat) (c : Char) (t : List Char) (hne : c ≠ ']') :
    parseVal (f + 1) ('[' :: c :: t) =
      (match parseElems f (c :: t) with
       | some (xs, rest) => some (Json.arr xs, rest)
       | none => none) := by
  simp only [parseVal]
  simp only [show (('[' : Char) = 'n') = False from by simp, if_false,
    show (('[' : Char) = 't') = False from by simp,
    show (('[' : Char) = 'f') = False from by simp,
    show (('[' : Char) = '"') = False from by simp,
    show (('[' : Char) = '[') = True from by simp, if_true]
  split
  · rename_i r' heq
    exact absurd (List.head_eq_of_cons_eq heq) hne
  · rfl

/-- Unfolding `parseVal` on an object opener followed by a key quote:
control passes to `parseMembers`. -/
theorem parseVal_brace (f : Nat) (t : List Char) :
    parseVal (f + 1) ('{' :: '"' :: t) =
      (match parseMembers f ('"' :: t) with
       | some (kvs, rest) => some (Json.obj kvs, rest)
       | none => none) := by
  simp only [parseVal]
  simp only [show (('{' : Char) = 'n') = False from by simp, if_false,
    show (('{' : Char) = 't') = False from by simp,
    show (('{' : Char) = 'f') = False from by simp,
    show (('{' : Char) = '"') = False from by simp,
    show (('{' : Char) = '[') = False from by simp,
    show (('{' : Char) = '{') = True from by simp, if_true]
  split
  · rename_i r' heq
    exact absurd (List.head_eq_of_cons_eq heq) (by decide)
  · rfl

/-- Joint round-trip statement, by induction on the parser fuel: on any fuel
exceeding the printed length, reading `dumps v` followed by a continuation
that does not begin with a digit yields exactly `v` and the continuation
(and correspondingly for array and object bodies). -/
theorem parse_dumps_fuel :
    ∀ f : Nat,
      (∀ v rest, WfJson v → (dumps v).length < f → notDigitHead rest →
        parseVal f (dumps v ++ rest) = some (v, rest)) ∧
      (∀ x xs rest, WfJson x → WfItems xs →
        (dumps x).length + (dumpsTail xs).length + 2 ≤ f →
        parseElems f (dumps x ++ (dumpsTail xs ++ ']' :: rest)) =
          some (.cons x xs, rest)) ∧
      (∀ k v kvs rest, WfStr k → WfJson v → WfMembers kvs →
        (escapeChars k).length + (dumps v).length + (dumpsMTail kvs).length + 6 ≤ f →
        parseMembers f
            ('"' :: (escapeChars k ++ '"' :: ':' :: ' ' ::
              (dumps v ++ (dumpsMTail kvs ++ '}' :: rest)))) =
          some (.cons k v kvs, rest)) := by
  intro f
  induction f with
  | zero =>
    refine ⟨?_, ?_, ?_⟩
    · intro v rest _ h _; exact absurd h (Nat.not_lt_zero _)
    · intro x xs rest _ _ h; omega
    · intro k v kvs rest _ _ _ h; omega
  | succ f ih =>
    obtain ⟨ihA, ihB, ihC⟩ := ih
    refine ⟨?_, ?_, ?_⟩
    · -- one value
      intro v rest hwf hlen hrest
      cases hwf with
      | null => simp [dumps, parseVal]
      | bool b => cases b <;> simp [dumps, parseVal]
      | int n =>
        simp only [dumps]
        by_cases hneg : n < 0
        · have hi : intChars n = '-' :: natChars n.natAbs := by simp [intChars, hneg]
          have hv : -|n| = n := by rw [abs_of_neg hneg]; exact neg_neg n
          rw [hi]
          simp [parseVal, parseNatNum_natChars n.natAbs rest hrest, hv]
        · obtain ⟨hne, hdig, -⟩ := natChars_spec n.natAbs
          have hi : intChars n = natChars n.natAbs := by simp [intChars, hneg]
          rcases hl : natChars n.natAbs with - | ⟨c, t⟩
          · exact absurd hl hne
          · have hcd : isDigitChar c = true := hdig c (by simp [hl])
            have h1 : ¬ c = 'n' := ne_of_not_digit hcd (by decide)
            have h2 : ¬ c = 't' := ne_of_not_digit hcd (by decide)
            have h3 : ¬ c = 'f' := ne_of_not_digit hcd (by decide)
            have h4 : ¬ c = '"' := ne_of_not_digit hcd (by decide)
            have h5 : ¬ c = '[' := ne_of_not_digit hcd (by decide)
            have h6 : ¬ c = '{' := ne_of_not_digit hcd (by decide)
            have h7 : ¬ c = '-' := ne_of_not_digit hcd (by decide)
            have hpn := parseNatNum_natChars n.natAbs rest hrest
            rw [hl] at hpn
            have hv : |n| = n := abs_of_nonneg (by omega)
            rw [hi, hl]
            simp [parseVal, h1, h2, h3, h4, h5, h6, h7, hcd,
              List.cons_append ] at hpn ⊢
            simp [hpn, hv]
      | str s h =>
        simp [dumps, parseVal, parseStrBody_escape s rest h]
      | arr xs h =>
        cases h with
        | nil => simp [dumps, parseVal]
        | cons x xs hx hxs =>
          obtain ⟨c, t, hct, hcne⟩ := dumps_head x
          have hcb := (head_ne_close hcne).1
          have hlen' : (dumps x).length + (dumpsTail xs).length + 2 ≤ f := by
            simp [dumps, List.length_append] at hlen; omega
          have hB := ihB x xs rest hx hxs hlen'
          have hshape : dumps (Json.arr (.cons x xs)) ++ rest =
              '[' :: (c :: (t ++ (dumpsTail xs ++ ']' :: rest))) := by
            simp [dumps, hct]
          rw [hshape, parseVal_bracket f c (t ++ (dumpsTail xs ++ ']' :: rest)) hcb,
            ← List.cons_append, ← hct, hB]
      | obj kvs h =>
        cases h with
        | nil => simp [dumps, parseVal]
        | cons k v kvs hk hv hkvs =>
          have hlen' :
              (escapeChars k).length + (dumps v).length + (dumpsMTail kvs).length + 6 ≤ f := by
            simp [dumps, keyText, List.length_append] at hlen; omega
          have hC := ihC k v kvs rest hk hv hkvs hlen'
          have hshape : dumps (Json.obj (.cons k v kvs)) ++ rest =
              '{' :: '"' :: (escapeChars k ++ '"' :: ':' :: ' ' ::
                (dumps v ++ (dumpsMTail kvs ++ '}' :: rest))) := by
            simp [dumps, keyText]
          rw [hshape, parseVal_brace f _, hC]
    · -- nonempty array body
      intro x xs rest hx hxs hlen
      have hdx := dumps_len_pos x
      have hA := ihA x (dumpsTail xs ++ ']' :: rest) hx (by omega)
        (notDigitHead_tail xs rest)
      simp only [parseElems, hA]
      cases hxs with
      | nil => simp [dumpsTail]
      | cons y ys hy hys =>
        have hdy := dumps_len_pos y
        have hlen' : (dumps y).length + (dumpsTail ys).length + 2 ≤ f := by
          simp [dumpsTail, List.length_append] at hlen; omega
        have hB := ihB y ys rest hy hys hlen'
        simp [dumpsTail, List.append_assoc, hB]
    · -- nonempty object body
      intro k v kvs rest hk hv hkvs hlen
      have hdv := dumps_len_pos v
      have hA := ihA v (dumpsMTail kvs ++ '}' :: rest) hv (by omega)
        (notDigitHead_mtail kvs rest)
      simp only [parseMembers]
      rw [parseStrBody_escape k (':' :: ' ' ::
        (dumps v ++ (dumpsMTail kvs ++ '}' :: rest))) hk]
      simp only [hA]
      cases hkvs with
      | nil => simp [dumpsMTail]
      | cons k2 v2 kvs2 hk2 hv2 hkvs2 =>
        have hdv2 := dumps_len_pos v2
        have hlen' :
            (escapeChars k2).length + (dumps v2).length + (dumpsMTail kvs2).length + 6 ≤ f := by
          simp [dumpsMTail, keyText, List.length_append] at hlen; omega
        have hC := ihC k2 v2 kvs2 rest hk2 hv2 hkvs2 hlen'
        simp [dumpsMTail, keyText, List.append_assoc, hC]


/-- Round trip at the text level: `json.loads` recovers what
`json.dumps` printed, for any value in the modelled slice. -/
theorem jsonParse_dumps (v : Json) (h : WfJson v) : jsonParse (dumps v) = some v := by
  have hA := (parse_dumps_fuel ((dumps v).length + 1)).1 v [] h
    (Nat.lt_succ_self _) (by simp [notDigitHead])
  rw [List.append_nil] at hA
  simp [jsonParse, hA]

/-! ### The byte layer: UTF-8 (ASCII slice) and the length prefix -/

/-- `str.encode("utf-8")` on the ASCII slice: one byte per character. -/
def encodeAscii (s : List Char) : List Nat := s.map Char.toNat

/-- `bytes.decode("utf-8")`, modelled on the ASCII slice: bytes at or above
128 raise `UnicodeDecodeError` (multi-byte sequences are outside the model). -/
def decodeAscii (bs : List Nat) : Option (List Char) :=
  if bs.all (fun b => decide (b < 128)) then some (bs.map Char.ofNat) else none

/-- `struct.pack("<I", n)`: the 4-byte little-endian length. -/
def u32le (n : Nat) : List Nat :=
  [n % 256, n / 256 % 256, n / 65536 % 256, n / 16777216 % 256]

/-- `struct.unpack("<I", b)[0]` on a 4-byte list (0 on any other shape). -/
def leU32 : List Nat → Nat
  | [b0, b1, b2, b3] => b0 + 256 * b1 + 65536 * b2 + 16777216 * b3
  | _ => 0

theorem leU32_u32le (n : Nat) (h : n < 4294967296) : leU32 (u32le n) = n := by
  simp [u32le, leU32]; omega

theorem decodeAscii_encodeAscii (s : List Char) (h : ∀ c ∈ s, c.toNat < 128) :
    decodeAscii (encodeAscii s) = some s := by
  have hall : (s.map Char.toNat).all (fun b => decide (b < 128)) = true := by
    simp [List.all_map]
    intro c hc
    exact h c hc
  simp [decodeAscii, encodeAscii, hall, List.map_map]
  calc s.map (fun c => Char.ofNat c.toNat) = s.map id := by
        apply List.map_congr_left
        intro c hc
        exact Char.ofNat_toNat c
    _ = s := List.map_id s

/-! ### Exceptions and pydantic models -/

/-- The exception kinds the engine can raise.  `protocolError` is
`protocol.ProtocolError`, `tcpConnectionError` is
`tcp_client.TcpConnectionError`; the remaining kinds model Python
exceptions that the engine's `except` clauses do not name
(`pydantic.ValidationError`, `UnicodeDecodeError`, `AttributeError`). -/
inductive PyExc where
  | protocolError (msg : String) : PyExc
  | tcpConnectionError (msg : String) : PyExc
  | valueError : PyExc
  | unicodeDecodeError : PyExc
  | attributeError : PyExc
deriving DecidableEq

/-- pydantic validation of an `int` field (v2 lax mode, as best modelled):
an integer passes through and an integer-literal string is coerced;
everything else (including booleans, which pydantic v2 rejects for `int`)
is a validation error. -/
def validateInt : Json → Option Int
  | .int n => some n
  | .str s =>
    match s with
    | '-' :: t =>
      if t ≠ [] ∧ t.all isDigitChar then some (-(digitsVal t : Int)) else none
    | t => if t ≠ [] ∧ t.all isDigitChar then some ((digitsVal t : Int)) else none
  | _ => none

/-- pydantic validation of a `str` field: strings only. -/
def validateStr : Json → Option (List Char)
  | .str s => some s
  | _ => none

/-- pydantic validation of an `Optional[Dict[str, Any]]` field:
`None` (JSON null or absent) or an object. -/
def validateOptDict : Json → Option (Option JsonMembers)
  | .null => some none
  | .obj m => some (some m)
  | _ => none

/-- `models.response.ErrorResponse` (pydantic): code, message,
optional data mapping. -/
structure ErrorResponse where
  code : Int
  message : List Char
  data : Option JsonMembers
deriving DecidableEq

/-- `models.response.Response` (pydantic): `id` an integer, `result` any
JSON value (`Json.null` for Python `None`), `error` an optional
`ErrorResponse`. -/
structure Response where
  id : Int
  result : Json
  error : Option ErrorResponse
deriving DecidableEq

/-- `models.request.Request` (pydantic): integer id, string method,
object params (already normalised by `create_request`). -/
structure Request where
  id : Int
  method : List Char
  params : JsonMembers
deriving DecidableEq

/-- `models.acknowledgment.Acknowledgment` (pydantic). -/
structure Acknowledgment where
  id : Int
  status : List Char
deriving DecidableEq

/-- `protocol.create_request`: `params or {}` replaces a missing (or falsy)
params mapping with the empty object. -/
def create_request (request_id : Int) (method : List Char)
    (params : Option JsonMembers) : Request :=
  { id := request_id, method := method,
    params := match params with
      | none => .nil
      | some m => m }

/-! ### The protocol codec (`src/protocol.py`) -/

/-- Length-prefix framing shared by `serialize_request` and
`_serialize_acknowledgment`: 4-byte little-endian byte count, then the
UTF-8 payload. -/
def frameBytes (payload : List Char) : List Nat :=
  u32le (encodeAscii payload).length ++ encodeAscii payload

/-- `protocol.serialize_request`: dump `{id, method, params}` to JSON and
frame it. -/
def serialize_request (req : Request) : List Nat :=
  frameBytes (dumps (.obj (.cons "id".data (.int req.id)
    (.cons "method".data (.str req.method)
      (.cons "params".data (.obj req.params) .nil)))))

/-- The `error`-member handling of `deserialize_response`: a falsy value
(`if json_dict.get("error"):`) yields no error object at all; a truthy
object is turned into an `ErrorResponse` with defaulted members; a truthy
non-object raises `AttributeError` (uncaught in the source). -/
def buildErrorField (m : JsonMembers) : Except PyExc (Option ErrorResponse) :=
  let errVal := dictGet m "error".data .null
  if errVal.truthy then
    match errVal with
    | .obj em =>
      match validateInt (dictGet em "code".data (.int (-32603))),
          validateStr (dictGet em "message".data (.str "Internal error".data)),
          validateOptDict (dictGet em "data".data .null) with
      | some c, some msg, some d => .ok (some ⟨c, msg, d⟩)
      | _, _, _ => .error .valueError
    | _ => .error .attributeError
  else .ok none

/-- The `try` block at the end of `deserialize_response` that turns the
parsed JSON into a `Response`: `json_dict.get` on a non-object raises
`AttributeError`; a truthy `error` member must be an object, its `code` and
`message` defaulting to `-32603` / `"Internal error"`; the `Response` id
defaults to `0`. -/
def buildResponse (j : Json) : Except PyExc Response :=
  match j with
  | .obj m =>
    match buildErrorField m with
    | .error e => .error e
    | .ok err =>
      match validateInt (dictGet m "id".data (.int 0)) with
      | some i => .ok ⟨i, dictGet m "result".data .null, err⟩
      | none => .error .valueError
  | _ => .error .attributeError

/-- `protocol.deserialize_response`, step by step from the source:
needs 4 bytes of length prefix; needs `4 + length` bytes in total; decodes
the payload as UTF-8 (model: ASCII) and JSON-parses it (`ProtocolError` on
parse failure); reads the `error` member with a truthiness test, building
an `ErrorResponse` with defaulted `code`/`message` when it is a truthy
object (an `AttributeError` escapes when it is truthy but not an object);
finally builds `Response` with `id` defaulted to 0 and `result` defaulted
to `None`.  pydantic field validation can reject badly-typed members with
a `ValidationError` (`valueError`), which the `except (KeyError, TypeError)`
clause of the source does not catch. -/
def deserialize_response (data : List Nat) : Except PyExc Response :=
  if data.length < 4 then
    .error (.protocolError "Message too short: missing length prefix")
  else
    let messageLength := leU32 (data.take 4)
    if data.length < 4 + messageLength then
      .error (.protocolError "Message incomplete")
    else
      match decodeAscii ((data.drop 4).take messageLength) with
      | none => .error .unicodeDecodeError
      | some jsonStr =>
        match jsonParse jsonStr with
        | none => .error (.protocolError "Invalid JSON")
        | some j => buildResponse j

example : deserialize_response (frameBytes "\x7b\"id\": 7, \"result\": 5\x7d".data) =
    .ok ⟨7, .int 5, none⟩ := rfl
example : deserialize_response (frameBytes "\x7b\x7d".data) = .ok ⟨0, .null, none⟩ := rfl
example : deserialize_response [2, 0, 0, 0, 120] =
    .error (.protocolError "Message incomplete") := rfl

/-! ### The TCP client (`src/tcp_client.py`) -/

/-- The observable state of a `TcpClient` plus its scripted socket:
`connected` is `_connected`, `sock` is `_socket is not None`, `counter` is
`_request_id_counter`; `stream` holds the bytes the peer will deliver,
`writeOk` scripts the outcome of each `_write_message` (empty script:
success), `connectOk` scripts each physical connect attempt (empty script:
success), and `sent` logs every successfully written message. -/
structure TcpState where
  connected : Bool
  sock : Bool
  counter : Nat
  stream : List Nat
  writeOk : List Bool
  connectOk : List Bool
  sent : List (List Nat)
deriving DecidableEq

/-- Pop the next scripted outcome; an exhausted script means success. -/
def popBool : List Bool → Bool × List Bool
  | [] => (true, [])
  | b :: r => (b, r)

/-- `TcpClient.connect`: a no-op when `_connected` is already set; otherwise
one scripted socket-connect attempt.  On failure the socket is dropped and
the state restored to disconnected before `TcpConnectionError` is raised.
(The heartbeat thread it starts is outside this single-threaded model.) -/
def connect (st : TcpState) : Except PyExc Unit × TcpState :=
  if st.connected then (.ok (), st)
  else
    match popBool st.connectOk with
    | (true, rest) =>
      (.ok (), { st with connected := true, sock := true, connectOk := rest })
    | (false, rest) =>
      (.error (.tcpConnectionError "Failed to connect to TCP server"),
        { st with connected := false, sock := false, connectOk := rest })

/-- `TcpClient.disconnect`: idempotent; closes the handle if any, swallows
close errors, always ends disconnected. -/
def disconnect (st : TcpState) : TcpState :=
  { st with connected := false, sock := false }

/-- `TcpClient.is_connected`: `_connected and _socket is not None`. -/
def is_connected (st : TcpState) : Bool := st.connected && st.sock

/-- `TcpClient._ensure_connected`. -/
def ensureConnected (st : TcpState) : Except PyExc Unit × TcpState :=
  if is_connected st then (.ok (), st) else connect st

/-- `TcpClient._get_next_request_id`: increment and return the counter. -/
def getNextRequestId (st : TcpState) : Nat × TcpState :=
  (st.counter + 1, { st with counter := st.counter + 1 })

/-- The source's 10 MiB cap on one message. -/
def MAX_MESSAGE_LEN : Nat := 10 * 1024 * 1024

/-- `TcpClient._read_message`: read 4 prefix bytes (connection error if the
peer closed first), reject a length above 10 MiB (the source also writes
`message_length < 0`, vacuous for an unsigned prefix, so zero is accepted),
then accumulate exactly that many payload bytes, a premature close being a
connection error.  Returns prefix plus payload, as the source does. -/
def readMessage (st : TcpState) : Except PyExc (List Nat) × TcpState :=
  let lengthBytes := st.stream.take 4
  let st1 := { st with stream := st.stream.drop 4 }
  if lengthBytes.length ≠ 4 then
    (.error (.tcpConnectionError "Failed to read message length"), st1)
  else
    let messageLength := leU32 lengthBytes
    if messageLength > MAX_MESSAGE_LEN then
      (.error (.tcpConnectionError "Invalid message length"), st1)
    else if st1.stream.length < messageLength then
      (.error (.tcpConnectionError "Socket closed before message complete"),
        { st1 with stream := [] })
    else
      (.ok (lengthBytes ++ st1.stream.take messageLength),
        { st1 with stream := st1.stream.drop messageLength })

/-- `TcpClient._write_message`: one scripted send loop; a failure raises
`TcpConnectionError`, a success appends the message to the `sent` log. -/
def writeMessage (st : TcpState) (data : List Nat) : Except PyExc Unit × TcpState :=
  match popBool st.writeOk with
  | (true, rest) => (.ok (), { st with writeOk := rest, sent := st.sent ++ [data] })
  | (false, rest) =>
    (.error (.tcpConnectionError "Error writing to socket"), { st with writeOk := rest })

/-- `TcpClient._serialize_acknowledgment`: dump `{id, status}` and frame it. -/
def serializeAcknowledgment (ack : Acknowledgment) : List Nat :=
  frameBytes (dumps (.obj (.cons "id".data (.int ack.id)
    (.cons "status".data (.str ack.status) .nil))))

/-- The server-heartbeat test of `TcpClient.call`:
`response.result and isinstance(response.result, dict) and
response.result.get("type") == "server_heartbeat"`. -/
def heartbeatTagged (result : Json) : Bool :=
  result.truthy &&
    (match result with
      | .obj m =>
        (match dictGet m "type".data .null with
          | .str s => decide (s = "server_heartbeat".data)
          | _ => false)
      | _ => false)

/-- The body of `TcpClient.call` inside its `try`: allocate the id, send the
request, read and decode the response, reconcile a heartbeat-interleaved id
mismatch with exactly one more read+decode (a second mismatch is only
logged), then send an acknowledgment carrying the issued request id,
swallowing any acknowledgment failure. -/
def callBody (st : TcpState) (method : List Char) (params : Option JsonMembers) :
    Except PyExc Response × TcpState :=
  let (requestId, st1) := getNextRequestId st
  let requestBytes := serialize_request (create_request (requestId : Int) method params)
  match writeMessage st1 requestBytes with
  | (.error e, st2) => (.error e, st2)
  | (.ok _, st2) =>
    match readMessage st2 with
    | (.error e, st3) => (.error e, st3)
    | (.ok responseBytes, st3) =>
      match deserialize_response responseBytes with
      | .error e => (.error e, st3)
      | .ok response =>
        let afterHb : Except PyExc Response × TcpState :=
          if response.id ≠ (requestId : Int) then
            if heartbeatTagged response.result then
              match readMessage st3 with
              | (.error e, st4) => (.error e, st4)
              | (.ok rb2, st4) =>
                match deserialize_response rb2 with
                | .error e => (.error e, st4)
                | .ok response2 => (.ok response2, st4)
            else (.ok response, st3)
          else (.ok response, st3)
        match afterHb with
        | (.error e, st5) => (.error e, st5)
        | (.ok resp, st5) =>
          let ackBytes := serializeAcknowledgment ⟨(requestId : Int), "received".data⟩
          match writeMessage st5 ackBytes with
          | (_, st6) => (.ok resp, st6)

/-- `TcpClient.call`: ensure connected (outside the `try`; a failed connect
has already reset the state), then run the body; `TcpConnectionError` and
`ProtocolError` mark the connection dead and re-raise unchanged, any other
exception marks it dead and is wrapped as `TcpConnectionError`. -/
def call (st : TcpState) (method : List Char) (params : Option JsonMembers) :
    Except PyExc Response × TcpState :=
  match ensureConnected st with
  | (.error e, st1) => (.error e, st1)
  | (.ok _, st1) =>
    match callBody st1 method params with
    | (.ok r, st2) => (.ok r, st2)
    | (.error e, st2) =>
      let st3 := { st2 with connected := false }
      match e with
      | .tcpConnectionError m => (.error (.tcpConnectionError m), st3)
      | .protocolError m => (.error (.protocolError m), st3)
      | _ => (.error (.tcpConnectionError "Unexpected error during call"), st3)

/-- The retry loop of `TcpClient.call_with_retry`, counting attempts left:
only `TcpConnectionError` is caught; between attempts (except after the
last) the client sleeps, disconnects (errors ignored) and reconnects
(a failed reconnect ignored); on exhaustion the last error is raised, or a
fresh "unknown error" `TcpConnectionError` when no attempt ran. -/
def callWithRetryAux (method : List Char) (params : Option JsonMembers) :
    Nat → Option PyExc → TcpState → Except PyExc Response × TcpState
  | 0, lastError, st =>
    (.error (lastError.getD (.tcpConnectionError "Call failed with unknown error")), st)
  | n + 1, _lastError, st =>
    match call st method params with
    | (.ok r, st') => (.ok r, st')
    | (.error e, st') =>
      match e with
      | .tcpConnectionError m =>
        if n > 0 then
          let st2 := disconnect st'
          match connect st2 with
          | (_, st3) => callWithRetryAux method params n (some (.tcpConnectionError m)) st3
        else
          callWithRetryAux method params n (some (.tcpConnectionError m)) st'
      | _ => (.error e, st')

/-- `TcpClient.call_with_retry`. -/
def call_with_retry (st : TcpState) (method : List Char) (params : Option JsonMembers)
    (maxRetries : Nat) : Except PyExc Response × TcpState :=
  callWithRetryAux method params maxRetries none st

/-- The ids issued by `n` sequential `_get_next_request_id` calls. -/
def issueIds : TcpState → Nat → List Nat
  | _, 0 => []
  | st, n + 1 =>
    match getNextRequestId st with
    | (i, st') => i :: issueIds st' n

example :
    (call ⟨true, true, 0,
      frameBytes "\x7b\"id\": 1, \"result\": \x7b\"health\": 100\x7d, \"error\": null\x7d".data,
      [], [], []⟩ "get_player".data none).1 =
    .ok ⟨1, .obj (.cons "health".data (.int 100) .nil), none⟩ := rfl

example :
    (call ⟨true, true, 0,
      frameBytes "\x7b\"id\": 1, \"result\": \x7b\"health\": 100\x7d, \"error\": null\x7d".data,
      [], [], []⟩ "get_player".data none).2.sent =
    [serialize_request (create_request 1 "get_player".data none),
     serializeAcknowledgment ⟨1, "received".data⟩] := rfl

/-! ### The printed text is ASCII on the well-formed slice -/

theorem escapeChars_ascii (s : List Char) (h : WfStr s) :
    ∀ c ∈ escapeChars s, c.toNat < 128 := by
  induction s with
  | nil => simp [escapeChars]
  | cons a s ih =>
    have ha := h a (by simp)
    have hs : WfStr s := fun d hd => h d (by simp [hd])
    intro c hc
    by_cases hesc : a = '"' ∨ a = '\\'
    · simp [escapeChars, hesc] at hc
      rcases hc with hc | hc | hc
      · subst hc; decide
      · subst hc; omega
      · exact ih hs c hc
    · simp [escapeChars, hesc] at hc
      rcases hc with hc | hc
      · subst hc; omega
      · exact ih hs c hc

theorem intChars_ascii (i : Int) : ∀ c ∈ intChars i, c.toNat < 128 := by
  obtain ⟨-, hdig, -⟩ := natChars_spec i.natAbs
  intro c hc
  have hdigit : ∀ d, isDigitChar d = true → d.toNat < 128 := by
    intro d hd; simp [isDigitChar] at hd; omega
  by_cases hneg : i < 0
  · simp [intChars, hneg] at hc
    rcases hc with hc | hc
    · subst hc; decide
    · exact hdigit c (hdig c hc)
  · simp [intChars, hneg] at hc
    exact hdigit c (hdig c hc)

theorem keyText_ascii (k : List Char) (h : WfStr k) :
    ∀ c ∈ keyText k, c.toNat < 128 := by
  intro c hc
  simp only [keyText, List.mem_cons, List.mem_append, List.mem_singleton,
    List.not_mem_nil, or_false] at hc
  rcases hc with hc | hc | hc
  · subst hc; decide
  · exact escapeChars_ascii k h c hc
  · subst hc; decide

mutual
theorem dumps_ascii (v : Json) (h : WfJson v) : ∀ c ∈ dumps v, c.toNat < 128 := by
  cases h with
  | null =>
    intro c hc
    simp only [dumps, List.mem_cons, List.not_mem_nil, or_false] at hc
    rcases hc with h | h | h | h <;> (subst h; decide)
  | bool b =>
    cases b with
    | false =>
      intro c hc
      simp only [dumps, List.mem_cons, List.not_mem_nil, or_false] at hc
      rcases hc with h | h | h | h | h <;> (subst h; decide)
    | true =>
      intro c hc
      simp only [dumps, List.mem_cons, List.not_mem_nil, or_false] at hc
      rcases hc with h | h | h | h <;> (subst h; decide)
  | int n => exact intChars_ascii n
  | str s hs =>
    intro c hc
    simp only [dumps, List.mem_cons, List.mem_append, List.mem_singleton,
      List.not_mem_nil, or_false] at hc
    rcases hc with h | h | h
    · subst h; decide
    · exact escapeChars_ascii s hs c h
    · subst h; decide
  | arr xs hxs =>
    cases hxs with
    | nil =>
      intro c hc
      simp only [dumps, List.mem_cons, List.not_mem_nil, or_false] at hc
      rcases hc with h | h <;> (subst h; decide)
    | cons x xs hx hxs' =>
      intro c hc
      simp only [dumps, List.mem_cons, List.mem_append, List.mem_singleton,
        List.not_mem_nil, or_false] at hc
      rcases hc with h | h | h | h
      · subst h; decide
      · exact dumps_ascii x hx c h
      · exact dumpsTail_ascii xs hxs' c h
      · subst h; decide
  | obj kvs hkvs =>
    cases hkvs with
    | nil =>
      intro c hc
      simp only [dumps, List.mem_cons, List.not_mem_nil, or_false] at hc
      rcases hc with h | h <;> (subst h; decide)
    | cons k v kvs hk hv hkvs' =>
      intro c hc
      simp only [dumps, List.mem_cons, List.mem_append, List.mem_singleton,
        List.not_mem_nil, or_false] at hc
      rcases hc with h | h | h | h | h | h
      · subst h; decide
      · exact keyText_ascii k hk c h
      · subst h; decide
      · subst h; decide
      · exact dumps_ascii v hv c h
      · rcases h with h | h
        · exact dumpsMTail_ascii kvs hkvs' c h
        · subst h; decide

theorem dumpsTail_ascii (xs : JsonItems) (h : WfItems xs) :
    ∀ c ∈ dumpsTail xs, c.toNat < 128 := by
  cases h with
  | nil => intro c hc; simp [dumpsTail] at hc
  | cons x xs hx hxs =>
    intro c hc
    simp only [dumpsTail, List.mem_cons, List.mem_append, List.mem_singleton,
      List.not_mem_nil, or_false] at hc
    rcases hc with h | h | h | h
    · subst h; decide
    · subst h; decide
    · exact dumps_ascii x hx c h
    · exact dumpsTail_ascii xs hxs c h

theorem dumpsMTail_ascii (kvs : JsonMembers) (h : WfMembers kvs) :
    ∀ c ∈ dumpsMTail kvs, c.toNat < 128 := by
  cases h with
  | nil => intro c hc; simp [dumpsMTail] at hc
  | cons k v kvs hk hv hkvs =>
    intro c hc
    simp only [dumpsMTail, List.mem_cons, List.mem_append, List.mem_singleton,
      List.not_mem_nil, or_false] at hc
    rcases hc with h | h | h | h | h | h
    · subst h; decide
    · subst h; decide
    · exact keyText_ascii k hk c h
    · subst h; decide
    · subst h; decide
    · rcases h with h | h
      · exact dumps_ascii v hv c h
      · exact dumpsMTail_ascii kvs hkvs c h
end

/-! ### Frame-level behaviour of the codec and the transport -/

theorem take4_cons (a b c d : Nat) (x : List Nat) :
    (a :: b :: c :: d :: x).take 4 = [a, b, c, d] := rfl

theorem drop4_cons (a b c d : Nat) (x : List Nat) :
    (a :: b :: c :: d :: x).drop 4 = x := rfl

/-- A framed ASCII payload decodes by parsing exactly the payload text:
`deserialize_response` applies no upper bound to the length prefix. -/
theorem deserialize_frameBytes (p : List Char)
    (hascii : ∀ c ∈ p, c.toNat < 128) (hlen : p.length < 4294967296) :
    deserialize_response (frameBytes p) =
      (match jsonParse p with
       | none => .error (.protocolError "Invalid JSON")
       | some j => buildResponse j) := by
  have hel : (encodeAscii p).length = p.length := by simp [encodeAscii]
  have hshape : frameBytes p =
      p.length % 256 :: p.length / 256 % 256 :: p.length / 65536 % 256 ::
        p.length / 16777216 % 256 :: encodeAscii p := by
    simp [frameBytes, u32le, hel]
  have hflen : (frameBytes p).length = 4 + p.length := by
    rw [hshape]; simp only [List.length_cons, hel]; omega
  have htake : (frameBytes p).take 4 = u32le p.length := by
    rw [hshape]; exact take4_cons _ _ _ _ _
  have hdrop : (frameBytes p).drop 4 = encodeAscii p := by
    rw [hshape]; exact drop4_cons _ _ _ _ _
  unfold deserialize_response
  rw [if_neg (by omega), htake, leU32_u32le p.length hlen, if_neg (by omega), hdrop]
  rw [show (encodeAscii p).take p.length = encodeAscii p from by
    rw [← hel]; exact List.take_length _]
  rw [decodeAscii_encodeAscii p hascii]

/-- `_read_message` consumes exactly one frame from the stream when the
declared length is within the 10 MiB cap. -/
theorem readMessage_frame (st : TcpState) (p : List Char) (tail : List Nat)
    (hstream : st.stream = frameBytes p ++ tail)
    (hmax : p.length ≤ MAX_MESSAGE_LEN) :
    readMessage st = (.ok (frameBytes p), { st with stream := tail }) := by
  have hM : MAX_MESSAGE_LEN = 10485760 := rfl
  have hmax' : p.length ≤ 10485760 := by omega
  have hlen32 : p.length < 4294967296 := by omega
  have hel : (encodeAscii p).length = p.length := by simp [encodeAscii]
  have hval : p.length % 256 + 256 * (p.length / 256 % 256) +
      65536 * (p.length / 65536 % 256) +
      16777216 * (p.length / 16777216 % 256) = p.length := by omega
  have hshape : frameBytes p ++ tail =
      p.length % 256 :: p.length / 256 % 256 :: p.length / 65536 % 256 ::
        p.length / 16777216 % 256 :: (encodeAscii p ++ tail) := by
    simp [frameBytes, u32le, hel]
  have htakeP : (encodeAscii p ++ tail).take p.length = encodeAscii p := by
    rw [← hel]; exact List.take_left _ _
  have hdropP : (encodeAscii p ++ tail).drop p.length = tail := by
    rw [← hel]; exact List.drop_left _ _
  obtain ⟨conn, sck, ctr, stream, wOk, cOk, sentL⟩ := st
  simp only at hstream
  subst hstream
  rw [hshape]
  unfold readMessage
  simp only [take4_cons, drop4_cons, List.length_cons, List.length_nil, leU32]
  rw [if_neg (by omega), hval, hM, if_neg (by omega)]
  rw [if_neg (by simp only [List.length_append, hel]; omega)]
  rw [htakeP, hdropP]
  simp [frameBytes, u32le, hel]

theorem ensureConnected_of_connected (st : TcpState) (h : is_connected st = true) :
    ensureConnected st = (.ok (), st) := by
  simp [ensureConnected, h]

theorem writeMessage_noScript (st : TcpState) (d : List Nat) (h : st.writeOk = []) :
    writeMessage st d = (.ok (), { st with sent := st.sent ++ [d] }) := by
  cases st
  simp_all [writeMessage, popBool]

/-! ### Helper lemmas shared by the claims -/

/-- A well-formed object whose dump fits the length prefix decodes to
exactly its member extraction. -/
theorem deserialize_dumps_obj (m : JsonMembers) (hm : WfMembers m)
    (hlen : (dumps (.obj m)).length < 4294967296) :
    deserialize_response (frameBytes (dumps (.obj m))) = buildResponse (.obj m) := by
  rw [deserialize_frameBytes _ (dumps_ascii _ (WfJson.obj m hm)) hlen,
    jsonParse_dumps _ (WfJson.obj m hm)]

/-- A falsy `error` member yields a `Response` whose error field is `None`. -/
theorem buildResponse_falsy (m : JsonMembers) (i : Int)
    (hid : validateInt (dictGet m "id".data (.int 0)) = some i)
    (hfalsy : (dictGet m "error".data .null).truthy = false) :
    buildResponse (.obj m) = .ok ⟨i, dictGet m "result".data .null, none⟩ := by
  simp [buildResponse, buildErrorField, hfalsy, hid]

/-- A truthy object `error` member yields an `ErrorResponse` built from its
(validated, defaulted) `code`, `message` and `data` members. -/
theorem buildResponse_truthy_obj (m em : JsonMembers) (c : Int)
    (msg : List Char) (d : Option JsonMembers) (i : Int)
    (herr : dictGet m "error".data .null = .obj em)
    (htr : (Json.obj em).truthy = true)
    (hc : validateInt (dictGet em "code".data (.int (-32603))) = some c)
    (hmsg : validateStr (dictGet em "message".data (.str "Internal error".data)) = some msg)
    (hd : validateOptDict (dictGet em "data".data .null) = some d)
    (hid : validateInt (dictGet m "id".data (.int 0)) = some i) :
    buildResponse (.obj m) = .ok ⟨i, dictGet m "result".data .null, some ⟨c, msg, d⟩⟩ := by
  simp [buildResponse, buildErrorField, herr, htr, hc, hmsg, hd, hid]

/-- Only a truthy object `error` member can produce a non-`None` error
field in a decoded `Response`. -/
theorem buildResponse_error_source (m : JsonMembers) (resp : Response)
    (h : buildResponse (.obj m) = .ok resp) (hne : resp.error ≠ none) :
    (dictGet m "error".data .null).truthy = true ∧
      ∃ em, dictGet m "error".data .null = .obj em := by
  by_cases htr : (dictGet m "error".data .null).truthy
  · refine ⟨htr, ?_⟩
    cases hev : dictGet m "error".data .null with
    | obj em => exact ⟨em, rfl⟩
    | null => rw [hev] at htr; simp [Json.truthy] at htr
    | bool b => rw [hev] at htr; simp [buildResponse, buildErrorField, hev, htr] at h
    | int n => rw [hev] at htr; simp [buildResponse, buildErrorField, hev, htr] at h
    | str s => rw [hev] at htr; simp [buildResponse, buildErrorField, hev, htr] at h
    | arr xs => rw [hev] at htr; simp [buildResponse, buildErrorField, hev, htr] at h
  · exfalso
    simp only [Bool.not_eq_true] at htr
    cases hv : validateInt (dictGet m "id".data (.int 0)) with
    | none => simp [buildResponse, buildErrorField, htr, hv] at h
    | some i =>
      rw [buildResponse_falsy m i hv htr] at h
      cases h
      simp at hne

/-! ### The claims -/

theorem issueIds_eq_range' :
    ∀ (n : Nat) (st : TcpState), issueIds st n = List.range' (st.counter + 1) n := by
  intro n
  induction n with
  | zero => intro st; simp [issueIds]
  | succ n ih =>
    intro st
    simp [issueIds, getNextRequestId, List.range', ih]

/-- C9: `_get_next_request_id` issues strictly increasing integers with no
repeats: over any `n` sequential allocations on one client state, every id
is strictly greater than every earlier one. -/
theorem c9_request_ids_strictly_increasing (st : TcpState) (n : Nat) :
    (issueIds st n).Pairwise (· < ·) := by
  rw [issueIds_eq_range']
  exact List.pairwise_lt_range' _ _ 1

/-- C2 counterexample: a well-framed `{}` payload is missing every response
key, yet `deserialize_response` raises nothing and returns the default
`Response` (id 0, result `None`, error `None`). -/
theorem c2_missing_keys_counterexample :
    deserialize_response (frameBytes "\x7b\x7d".data) = .ok ⟨0, .null, none⟩ := rfl

/-- C2 (amended): `deserialize_response` raises a Protocol error on a buffer
of fewer than 4 bytes, on a buffer shorter than `4 +` its declared length,
and on a payload that is not valid JSON; but missing response keys do not
raise: a well-formed JSON-object payload decodes with `id` defaulted to 0,
`result` to `None` and a falsy/absent `error` to `None`. -/
theorem c2_decode_errors_amended :
    (∀ data : List Nat, data.length < 4 →
      deserialize_response data =
        .error (.protocolError "Message too short: missing length prefix")) ∧
    (∀ data : List Nat, 4 ≤ data.length → data.length < 4 + leU32 (data.take 4) →
      deserialize_response data = .error (.protocolError "Message incomplete")) ∧
    (∀ p : List Char, (∀ c ∈ p, c.toNat < 128) → p.length < 4294967296 →
      jsonParse p = none →
      deserialize_response (frameBytes p) = .error (.protocolError "Invalid JSON")) ∧
    (∀ m : JsonMembers, WfMembers m → (dumps (.obj m)).length < 4294967296 →
      ∀ i : Int, validateInt (dictGet m "id".data (.int 0)) = some i →
      (dictGet m "error".data .null).truthy = false →
      deserialize_response (frameBytes (dumps (.obj m))) =
        .ok ⟨i, dictGet m "result".data .null, none⟩) := by
  refine ⟨?_, ?_, ?_, ?_⟩
  · intro data h
    simp [deserialize_response, h]
  · intro data h4 hshort
    rw [deserialize_response, if_neg (by omega), if_pos (by omega)]
  · intro p hascii hlen hparse
    rw [deserialize_frameBytes p hascii hlen, hparse]
  · intro m hm hlen i hid hfalsy
    rw [deserialize_dumps_obj m hm hlen, buildResponse_falsy m i hid hfalsy]

/-- Witness for C2: each amended conjunct at a concrete input. -/
theorem c2_decode_errors_witness :
    deserialize_response [1, 2] =
        .error (.protocolError "Message too short: missing length prefix") ∧
    deserialize_response [5, 0, 0, 0] = .error (.protocolError "Message incomplete") ∧
    deserialize_response (frameBytes "x".data) = .error (.protocolError "Invalid JSON") ∧
    deserialize_response (frameBytes (dumps (.obj .nil))) = .ok ⟨0, .null, none⟩ :=
  ⟨c2_decode_errors_amended.1 [1, 2] (by decide),
   c2_decode_errors_amended.2.1 [5, 0, 0, 0] (by decide) (by decide),
   c2_decode_errors_amended.2.2.1 "x".data (by decide) (by decide) (by decide),
   c2_decode_errors_amended.2.2.2 .nil .nil (by decide) 0 (by decide) (by decide)⟩

/-- C3 counterexample: a zero length prefix is not rejected by the framed
read: `_read_message` returns the empty-payload frame successfully. -/
theorem c3_zero_length_counterexample :
    readMessage ⟨true, true, 0, [0, 0, 0, 0], [], [], []⟩ =
      (.ok [0, 0, 0, 0], ⟨true, true, 0, [], [], [], []⟩) := rfl

/-- C3 (amended): the framed read rejects a length prefix above 10 MiB
before reading any payload byte, but accepts a zero prefix (the source's
`message_length < 0` test is vacuous for an unsigned prefix), and
`deserialize_response` applies no bound at all to the prefix: with prefix 0
it fails only when JSON-parsing the empty payload, and it decodes any
complete well-formed buffer regardless of its declared size. -/
theorem c3_length_validation_amended :
    (∀ (st : TcpState) (l : Nat) (tail : List Nat), st.stream = u32le l ++ tail →
      l < 4294967296 → l > MAX_MESSAGE_LEN →
      readMessage st = (.error (.tcpConnectionError "Invalid message length"),
        { st with stream := tail })) ∧
    (∀ (st : TcpState) (tail : List Nat), st.stream = u32le 0 ++ tail →
      readMessage st = (.ok [0, 0, 0, 0], { st with stream := tail })) ∧
    (deserialize_response [0, 0, 0, 0] = .error (.protocolError "Invalid JSON")) ∧
    (∀ p : List Char, (∀ c ∈ p, c.toNat < 128) → p.length < 4294967296 →
      deserialize_response (frameBytes p) =
        (match jsonParse p with
         | none => .error (.protocolError "Invalid JSON")
         | some j => buildResponse j)) := by
  refine ⟨?_, ?_, rfl, deserialize_frameBytes⟩
  · intro st l tail hstream h32 hbig
    have hM : MAX_MESSAGE_LEN = 10485760 := rfl
    have hval : l % 256 + 256 * (l / 256 % 256) + 65536 * (l / 65536 % 256) +
        16777216 * (l / 16777216 % 256) = l := by omega
    obtain ⟨conn, sck, ctr, stream, wOk, cOk, sentL⟩ := st
    simp only at hstream
    subst hstream
    rw [show u32le l ++ tail = l % 256 :: l / 256 % 256 :: l / 65536 % 256 ::
      l / 16777216 % 256 :: tail from by simp [u32le]]
    unfold readMessage
    simp only [take4_cons, drop4_cons, List.length_cons, List.length_nil, leU32]
    rw [if_neg (by omega), hval, if_pos (by omega)]
  · intro st tail hstream
    obtain ⟨conn, sck, ctr, stream, wOk, cOk, sentL⟩ := st
    simp only at hstream
    subst hstream
    rw [show u32le 0 ++ tail = 0 :: 0 :: 0 :: 0 :: tail from by simp [u32le]]
    unfold readMessage
    simp only [take4_cons, drop4_cons, List.length_cons, List.length_nil, leU32]
    rw [if_neg (by omega)]
    rw [if_neg (by simp [MAX_MESSAGE_LEN])]
    rw [if_neg (by omega)]
    simp

/-- Witness for C3: the amended conjuncts at concrete inputs. -/
theorem c3_length_validation_witness :
    readMessage ⟨true, true, 0, u32le 10485761 ++ [9], [], [], []⟩ =
        (.error (.tcpConnectionError "Invalid message length"),
          ⟨true, true, 0, [9], [], [], []⟩) ∧
    readMessage ⟨true, true, 5, u32le 0 ++ [7], [], [], []⟩ =
        (.ok [0, 0, 0, 0], ⟨true, true, 5, [7], [], [], []⟩) ∧
    deserialize_response (frameBytes "\x7b\x7d".data) = .ok ⟨0, .null, none⟩ :=
  ⟨c3_length_validation_amended.1 ⟨true, true, 0, u32le 10485761 ++ [9], [], [], []⟩
      10485761 [9] rfl (by decide) (by decide),
   c3_length_validation_amended.2.1 ⟨true, true, 5, u32le 0 ++ [7], [], [], []⟩ [7] rfl,
   by
    rw [c3_length_validation_amended.2.2.2 "\x7b\x7d".data (by decide) (by decide)]
    rfl⟩

/-- One `call` whose request write fails: the id is allocated, the write
consumes its scripted failure, the connection is marked dead, and the
`TcpConnectionError` is re-raised. -/
theorem call_write_fail (st : TcpState) (method : List Char)
    (params : Option JsonMembers) (w : List Bool)
    (hc : st.connected = true) (hs : st.sock = true)
    (hw : st.writeOk = false :: w) :
    call st method params = (.error (.tcpConnectionError "Error writing to socket"),
      { st with connected := false, counter := st.counter + 1, writeOk := w }) := by
  obtain ⟨conn, sck, ctr, stream, wOk, cOk, sentL⟩ := st
  simp only at hc hs hw
  subst hc; subst hs; subst hw
  simp [call, ensureConnected, is_connected, callBody, getNextRequestId,
    writeMessage, popBool]

/-- The retry loop under an always-failing transport: each attempt allocates
one id and consumes one scripted write failure; after the last attempt the
last write error is raised. -/
theorem callWithRetryAux_write_fail (method : List Char) (params : Option JsonMembers) :
    ∀ (k : Nat) (st : TcpState) (lastErr : Option PyExc),
      st.connected = true → st.sock = true →
      st.writeOk = List.replicate (k + 1) false →
      st.connectOk = List.replicate k true →
      ∃ stF, callWithRetryAux method params (k + 1) lastErr st =
          (.error (.tcpConnectionError "Error writing to socket"), stF) ∧
        stF.counter = st.counter + (k + 1) := by
  intro k
  induction k with
  | zero =>
    intro st lastErr hc hs hw hco
    rw [List.replicate_succ, List.replicate_zero] at hw
    have hcall := call_write_fail st method params [] hc hs hw
    refine ⟨{ st with connected := false, counter := st.counter + 1, writeOk := [] }, ?_, rfl⟩
    unfold callWithRetryAux
    rw [hcall]
    rfl
  | succ k ih =>
    intro st lastErr hc hs hw hco
    rw [List.replicate_succ] at hw hco
    have hcall := call_write_fail st method params (List.replicate (k + 1) false) hc hs hw
    have hconn : connect (disconnect { st with connected := false, counter := st.counter + 1, writeOk := List.replicate (k + 1) false }) = (.ok (), { st with connected := true, sock := true, counter := st.counter + 1, writeOk := List.replicate (k + 1) false, connectOk := List.replicate k true }) := by
      simp [disconnect, connect, hco, popBool]
    obtain ⟨stF, hrec, hctr⟩ := ih { st with connected := true, sock := true, counter := st.counter + 1, writeOk := List.replicate (k + 1) false, connectOk := List.replicate k true } (some (.tcpConnectionError "Error writing to socket")) rfl rfl rfl rfl
    refine ⟨stF, ?_, ?_⟩
    · show callWithRetryAux method params (k + 1 + 1) lastErr st = _
      unfold callWithRetryAux
      rw [hcall]
      simp only [Nat.add_eq, Nat.succ_ne_zero, if_pos (Nat.succ_pos k), hconn]
      exact hrec
    · simp only at hctr
      omega

/-- C4: when every underlying attempt raises a Connection error,
`call_with_retry` makes exactly `max_retries` attempts (one request id is
allocated per attempt) and then raises the last observed Connection error;
and with `max_retries = 0` it raises a fresh Connection error carrying the
"unknown error" message instead of returning nothing. -/
theorem c4_retry_bound :
    (∀ (st : TcpState) (method : List Char) (params : Option JsonMembers) (n : Nat),
      st.connected = true → st.sock = true →
      st.writeOk = List.replicate (n + 1) false →
      st.connectOk = List.replicate n true →
      ∃ stF, call_with_retry st method params (n + 1) =
          (.error (.tcpConnectionError "Error writing to socket"), stF) ∧
        stF.counter = st.counter + (n + 1)) ∧
    (∀ (st : TcpState) (method : List Char) (params : Option JsonMembers),
      call_with_retry st method params 0 =
        (.error (.tcpConnectionError "Call failed with unknown error"), st)) := by
  constructor
  · intro st method params n hc hs hw hco
    exact callWithRetryAux_write_fail method params n st none hc hs hw hco
  · intro st method params
    rfl

/-- Witness for C4: three always-failing attempts allocate ids 1, 2, 3 and
raise; a zero-attempt call raises the "unknown error" immediately. -/
theorem c4_retry_bound_witness :
    (∃ stF, call_with_retry ⟨true, true, 0, [], List.replicate 3 false,
        List.replicate 2 true, []⟩ "m".data none 3 =
        (.error (.tcpConnectionError "Error writing to socket"), stF) ∧
      stF.counter = 0 + 3) ∧
    call_with_retry ⟨true, true, 0, [], [], [], []⟩ "m".data none 0 =
      (.error (.tcpConnectionError "Call failed with unknown error"),
        ⟨true, true, 0, [], [], [], []⟩) :=
  ⟨c4_retry_bound.1 ⟨true, true, 0, [], List.replicate 3 false,
      List.replicate 2 true, []⟩ "m".data none 2 rfl rfl rfl rfl,
   c4_retry_bound.2 ⟨true, true, 0, [], [], [], []⟩ "m".data none⟩

/-- A failed `ensure_connected` leaves the client disconnected
(`connect` resets the state on every failure path). -/
theorem ensureConnected_error (st st1 : TcpState) (e : PyExc)
    (h : ensureConnected st = (.error e, st1)) : st1.connected = false := by
  unfold ensureConnected connect at h
  by_cases hic : is_connected st = true
  · rw [if_pos hic] at h; cases h
  · rw [if_neg hic] at h
    by_cases hc : st.connected = true
    · rw [if_pos hc] at h; cases h
    · rw [if_neg hc] at h
      rcases hp : popBool st.connectOk with ⟨b, rest⟩
      rw [hp] at h
      cases b
      · cases h; rfl
      · cases h

/-- C5 counterexample: a protocol failure (garbage JSON from the peer)
is re-raised by `call` as the `ProtocolError` itself, not wrapped as a
Connection error. -/
theorem c5_protocol_not_wrapped_counterexample :
    (call ⟨true, true, 0, [1, 0, 0, 0, 120], [], [], []⟩ "m".data none).1 =
        .error (.protocolError "Invalid JSON") ∧
      ∀ msg, (PyExc.protocolError "Invalid JSON") ≠ .tcpConnectionError msg :=
  ⟨rfl, fun _ h => PyExc.noConfusion h⟩

/-- C5 (amended): every error exit of `call` leaves the connection marked
`Disconnected`; but the error is re-raised as itself — in particular a
`ProtocolError` raised while decoding surfaces as that `ProtocolError`,
and only exceptions that are neither Connection nor Protocol errors are
wrapped as Connection errors. -/
theorem c5_error_marks_disconnected_amended :
    (∀ (st : TcpState) (method : List Char) (params : Option JsonMembers)
        (e : PyExc) (st' : TcpState),
      call st method params = (.error e, st') → st'.connected = false) ∧
    (∀ (st : TcpState) (method : List Char) (params : Option JsonMembers)
        (msg : String) (st2 : TcpState), is_connected st = true →
      callBody st method params = (.error (.protocolError msg), st2) →
      call st method params = (.error (.protocolError msg),
        { st2 with connected := false })) := by
  constructor
  · intro st method params e st' h
    unfold call at h
    rcases hec : ensureConnected st with ⟨ecr, st1⟩
    rw [hec] at h
    cases ecr with
    | error e1 =>
      dsimp only at h
      cases h
      exact ensureConnected_error st _ _ hec
    | ok u =>
      dsimp only at h
      rcases hcb : callBody st1 method params with ⟨cbr, st2⟩
      rw [hcb] at h
      cases cbr with
      | ok r => simp at h
      | error e2 =>
        dsimp only at h
        cases e2 <;> (cases h; rfl)
  · intro st method params msg st2 hconn hbody
    unfold call
    rw [ensureConnected_of_connected st hconn]
    dsimp only
    rw [hbody]

/-- Witness for C5: the garbage-JSON run both marks the state disconnected
and surfaces the protocol error unchanged. -/
theorem c5_error_marks_disconnected_witness :
    (call ⟨true, true, 0, [1, 0, 0, 0, 120], [], [], []⟩ "m".data none).2.connected
        = false ∧
    call ⟨true, true, 0, [1, 0, 0, 0, 120], [], [], []⟩ "m".data none =
      (.error (.protocolError "Invalid JSON"),
        ⟨false, true, 1, [], [], [], [serialize_request (create_request 1 "m".data none)]⟩) :=
  ⟨c5_error_marks_disconnected_amended.1 ⟨true, true, 0, [1, 0, 0, 0, 120], [], [], []⟩
      "m".data none (.protocolError "Invalid JSON")
      ⟨false, true, 1, [], [], [], [serialize_request (create_request 1 "m".data none)]⟩ rfl,
   c5_error_marks_disconnected_amended.2 ⟨true, true, 0, [1, 0, 0, 0, 120], [], [], []⟩
      "m".data none "Invalid JSON"
      ⟨true, true, 1, [], [], [], [serialize_request (create_request 1 "m".data none)]⟩
      rfl rfl⟩

/-- C1: when the first decoded `Response` answers a different id and its
result is tagged as a server heartbeat, `call` discards it, performs
exactly one more read-and-decode cycle (the stream advances past exactly
the two frames), and returns the second `Response` to the caller — with no
hypothesis on the second response's id, so a still-mismatching second id is
returned without raising. -/
theorem c1_heartbeat_interleave
    (st : TcpState) (method : List Char) (params : Option JsonMembers)
    (p1 p2 : List Char) (tail : List Nat) (r1 r2 : Response)
    (hconn : is_connected st = true)
    (hw : st.writeOk = [])
    (hstream : st.stream = frameBytes p1 ++ (frameBytes p2 ++ tail))
    (hp1 : p1.length ≤ MAX_MESSAGE_LEN) (hp2 : p2.length ≤ MAX_MESSAGE_LEN)
    (hd1 : deserialize_response (frameBytes p1) = .ok r1)
    (hd2 : deserialize_response (frameBytes p2) = .ok r2)
    (hmis : r1.id ≠ ((st.counter + 1 : Nat) : Int))
    (htag : heartbeatTagged r1.result = true) :
    call st method params =
      (.ok r2, { st with counter := st.counter + 1, stream := tail, sent := st.sent ++ [serialize_request (create_request ((st.counter + 1 : Nat) : Int) method params), serializeAcknowledgment ⟨((st.counter + 1 : Nat) : Int), "received".data⟩] }) := by
  unfold call
  rw [ensureConnected_of_connected st hconn]
  dsimp only
  unfold callBody getNextRequestId
  dsimp only
  rw [writeMessage_noScript _ _ (by simp [hw])]
  dsimp only
  rw [readMessage_frame _ p1 (frameBytes p2 ++ tail) (by simp [hstream]) hp1]
  dsimp only
  rw [hd1]
  dsimp only
  rw [if_pos hmis, if_pos htag]
  rw [readMessage_frame _ p2 tail (by simp) hp2]
  dsimp only
  rw [hd2]
  dsimp only
  rw [writeMessage_noScript _ _ (by simp [hw])]
  simp [hw]

/-- Witness for C1: a heartbeat-tagged response with id 999 arrives first,
the true response (id 1) follows; `call` returns the true response. -/
theorem c1_heartbeat_interleave_witness :
    call ⟨true, true, 0, frameBytes "\x7b\"id\": 999, \"result\": \x7b\"type\": \"server_heartbeat\"\x7d\x7d".data ++ (frameBytes "\x7b\"id\": 1, \"result\": 42\x7d".data ++ []), [], [], []⟩ "m".data none =
      (.ok ⟨1, .int 42, none⟩, ⟨true, true, 1, [], [], [], [serialize_request (create_request 1 "m".data none), serializeAcknowledgment ⟨1, "received".data⟩]⟩) := by
  have h := c1_heartbeat_interleave
    ⟨true, true, 0, frameBytes "\x7b\"id\": 999, \"result\": \x7b\"type\": \"server_heartbeat\"\x7d\x7d".data ++ (frameBytes "\x7b\"id\": 1, \"result\": 42\x7d".data ++ []), [], [], []⟩
    "m".data none
    "\x7b\"id\": 999, \"result\": \x7b\"type\": \"server_heartbeat\"\x7d\x7d".data
    "\x7b\"id\": 1, \"result\": 42\x7d".data
    [] ⟨999, .obj (.cons "type".data (.str "server_heartbeat".data) .nil), none⟩
    ⟨1, .int 42, none⟩ rfl rfl rfl (by decide) (by decide) rfl rfl (by decide) rfl
  exact h

theorem writeMessage_trueScript (st : TcpState) (d : List Nat) (w : List Bool)
    (h : st.writeOk = true :: w) :
    writeMessage st d = (.ok (), { st with writeOk := w, sent := st.sent ++ [d] }) := by
  simp [writeMessage, h, popBool]

theorem writeMessage_failScript (st : TcpState) (d : List Nat) (w : List Bool)
    (h : st.writeOk = false :: w) :
    writeMessage st d =
      (.error (.tcpConnectionError "Error writing to socket"), { st with writeOk := w }) := by
  simp [writeMessage, h, popBool]

/-- C8: once a valid `Response` has been received and decoded, a failure of
the acknowledgment write is swallowed: `call` still returns that
`Response`, and the only message logged as sent is the request (the
acknowledgment write failed and never retried or failed the call). -/
theorem c8_ack_failure_swallowed
    (st : TcpState) (method : List Char) (params : Option JsonMembers)
    (p : List Char) (tail : List Nat) (r : Response)
    (hconn : is_connected st = true)
    (hw : st.writeOk = [true, false])
    (hstream : st.stream = frameBytes p ++ tail)
    (hp : p.length ≤ MAX_MESSAGE_LEN)
    (hd : deserialize_response (frameBytes p) = .ok r)
    (hid : r.id = ((st.counter + 1 : Nat) : Int)) :
    call st method params =
      (.ok r, { st with counter := st.counter + 1, stream := tail, writeOk := [], sent := st.sent ++ [serialize_request (create_request ((st.counter + 1 : Nat) : Int) method params)] }) := by
  unfold call
  rw [ensureConnected_of_connected st hconn]
  dsimp only
  unfold callBody getNextRequestId
  dsimp only
  rw [writeMessage_trueScript _ _ [false] (by simp [hw])]
  dsimp only
  rw [readMessage_frame _ p tail (by simp [hstream]) hp]
  dsimp only
  rw [hd]
  dsimp only
  rw [if_neg (by simp [hid])]
  dsimp only
  rw [writeMessage_failScript _ _ [] (by simp)]

/-- Witness for C8: the request write succeeds, the acknowledgment write
fails, and the call still returns the decoded response. -/
theorem c8_ack_failure_swallowed_witness :
    call ⟨true, true, 0, frameBytes "\x7b\"id\": 1, \"result\": 5\x7d".data ++ [], [true, false], [], []⟩ "m".data none =
      (.ok ⟨1, .int 5, none⟩, ⟨true, true, 1, [], [], [], [serialize_request (create_request 1 "m".data none)]⟩) := by
  have h := c8_ack_failure_swallowed
    ⟨true, true, 0, frameBytes "\x7b\"id\": 1, \"result\": 5\x7d".data ++ [], [true, false], [], []⟩
    "m".data none "\x7b\"id\": 1, \"result\": 5\x7d".data [] ⟨1, .int 5, none⟩
    rfl rfl rfl (by decide) rfl (by decide)
  exact h

/-- C6 counterexample: the peer answers with id 7 to request id 1 (no
heartbeat tag), `call` returns that response, and the acknowledgment it
sends carries id 1 — the issued request id — not the received response
id 7. -/
theorem c6_ack_id_counterexample :
    (call ⟨true, true, 0, frameBytes "\x7b\"id\": 7, \"result\": 1\x7d".data, [], [], []⟩ "m".data none).1 = .ok ⟨7, .int 1, none⟩ ∧
    (call ⟨true, true, 0, frameBytes "\x7b\"id\": 7, \"result\": 1\x7d".data, [], [], []⟩ "m".data none).2.sent =
      [serialize_request (create_request 1 "m".data none),
       serializeAcknowledgment ⟨1, "received".data⟩] ∧
    (1 : Int) ≠ 7 :=
  ⟨rfl, rfl, by decide⟩

/-- C6 (amended): the acknowledgment always carries the issued request id
(`Acknowledgment(id=request_id)` in the source), which coincides with the
response id exactly when the two match; on every single-read completion of
`call` (matching id, or mismatching id without a heartbeat tag) the logged
acknowledgment is `serializeAcknowledgment` of the request id. -/
theorem c6_ack_uses_request_id_amended
    (st : TcpState) (method : List Char) (params : Option JsonMembers)
    (p : List Char) (tail : List Nat) (r : Response)
    (hconn : is_connected st = true)
    (hw : st.writeOk = [])
    (hstream : st.stream = frameBytes p ++ tail)
    (hp : p.length ≤ MAX_MESSAGE_LEN)
    (hd : deserialize_response (frameBytes p) = .ok r)
    (hnothb : ¬ (r.id ≠ ((st.counter + 1 : Nat) : Int) ∧ heartbeatTagged r.result = true)) :
    call st method params =
      (.ok r, { st with counter := st.counter + 1, stream := tail, sent := st.sent ++ [serialize_request (create_request ((st.counter + 1 : Nat) : Int) method params), serializeAcknowledgment ⟨((st.counter + 1 : Nat) : Int), "received".data⟩] }) := by
  unfold call
  rw [ensureConnected_of_connected st hconn]
  dsimp only
  unfold callBody getNextRequestId
  dsimp only
  rw [writeMessage_noScript _ _ (by simp [hw])]
  dsimp only
  rw [readMessage_frame _ p tail (by simp [hstream]) hp]
  dsimp only
  rw [hd]
  dsimp only
  by_cases hmis : r.id ≠ ((st.counter + 1 : Nat) : Int)
  · have htag : ¬ heartbeatTagged r.result = true := fun ht => hnothb ⟨hmis, ht⟩
    rw [if_pos hmis, if_neg htag]
    dsimp only
    rw [writeMessage_noScript _ _ (by simp [hw])]
    simp [hw]
  · rw [if_neg hmis]
    dsimp only
    rw [writeMessage_noScript _ _ (by simp [hw])]
    simp [hw]

/-- Witness for C6 (amended): a matching response — the acknowledgment in
the sent log carries the request id 1. -/
theorem c6_ack_uses_request_id_witness :
    call ⟨true, true, 0, frameBytes "\x7b\"id\": 1, \"result\": 5\x7d".data ++ [], [], [], []⟩ "m".data none =
      (.ok ⟨1, .int 5, none⟩, ⟨true, true, 1, [], [], [], [serialize_request (create_request 1 "m".data none), serializeAcknowledgment ⟨1, "received".data⟩]⟩) := by
  have h := c6_ack_uses_request_id_amended
    ⟨true, true, 0, frameBytes "\x7b\"id\": 1, \"result\": 5\x7d".data ++ [], [], [], []⟩
    "m".data none "\x7b\"id\": 1, \"result\": 5\x7d".data [] ⟨1, .int 5, none⟩
    rfl rfl rfl (by decide) rfl (by decide)
  exact h

/-- Modelled from the spec: the server-side serialisation of a Response is
not part of this repository (only the client decodes responses), so the
inbound JSON shape of spec §6 — `{"id": <int>, "result": <any|null>,
"error": {"code", "message", "data"} | null}` — is built here with the same
framing and `json.dumps` conventions the repository's `serialize_request`
uses. -/
def wireJson (r : Response) : Json :=
  .obj (.cons "id".data (.int r.id)
    (.cons "result".data r.result
      (.cons "error".data
        (match r.error with
         | none => .null
         | some e => .obj (.cons "code".data (.int e.code)
             (.cons "message".data (.str e.message)
               (match e.data with
                | none => .nil
                | some d => .cons "data".data (.obj d) .nil)))) .nil)))

/-- Modelled from the spec: the transport bytes for a hand-built Response
(spec §8 round-trip property), length-prefix framing as in
`serialize_request`. -/
def encodeResponseWire (r : Response) : List Nat :=
  frameBytes (dumps (wireJson r))

/-- C7: round trip — framing and then decoding a hand-built Response
recovers its id, result and error fields exactly, for every Response in
the modelled slice (ASCII strings, data mappings well-formed, payload
within the 32-bit length prefix). -/
theorem c7_roundtrip (r : Response)
    (hres : WfJson r.result)
    (herr : ∀ e, r.error = some e → WfStr e.message ∧
      ∀ d, e.data = some d → WfMembers d)
    (hlen : (dumps (wireJson r)).length < 4294967296) :
    deserialize_response (encodeResponseWire r) = .ok r := by
  obtain ⟨rid, result, error⟩ := r
  have hwfkey : ∀ s : String, s = "id" ∨ s = "result" ∨ s = "error" ∨
      s = "code" ∨ s = "message" ∨ s = "data" → WfStr s.data := by
    intro s hs
    rcases hs with h | h | h | h | h | h <;> (subst h; intro c hc; fin_cases hc <;> decide)
  have hwf : WfJson (wireJson ⟨rid, result, error⟩) := by
    apply WfJson.obj
    apply WfMembers.cons _ _ _ (hwfkey "id" (by simp)) (WfJson.int rid)
    apply WfMembers.cons _ _ _ (hwfkey "result" (by simp)) hres
    apply WfMembers.cons _ _ _ (hwfkey "error" (by simp)) ?_ WfMembers.nil
    cases error with
    | none => exact WfJson.null
    | some e =>
      obtain ⟨hmsg, hdata⟩ := herr e rfl
      apply WfJson.obj
      apply WfMembers.cons _ _ _ (hwfkey "code" (by simp)) (WfJson.int e.code)
      apply WfMembers.cons _ _ _ (hwfkey "message" (by simp)) (WfJson.str _ hmsg)
      cases hed : e.data with
      | none => exact WfMembers.nil
      | some d =>
        exact WfMembers.cons _ _ _ (hwfkey "data" (by simp))
          (WfJson.obj _ (hdata d hed)) WfMembers.nil
  rw [encodeResponseWire,
    deserialize_frameBytes _ (dumps_ascii _ hwf) hlen,
    jsonParse_dumps _ hwf]
  cases error with
  | none =>
    simp [wireJson, buildResponse, buildErrorField, dictGet,
      JsonMembers.lookupLast, Json.truthy, validateInt]
  | some e =>
    obtain ⟨ec, em, ed⟩ := e
    cases ed with
    | none =>
      simp [wireJson, buildResponse, buildErrorField, dictGet,
        JsonMembers.lookupLast, Json.truthy, validateInt, validateStr,
        validateOptDict]
    | some d =>
      simp [wireJson, buildResponse, buildErrorField, dictGet,
        JsonMembers.lookupLast, Json.truthy, validateInt, validateStr,
        validateOptDict]

/-- Witness for C7: a Response with result object, error code, message and
data mapping survives the encode–decode round trip exactly. -/
theorem c7_roundtrip_witness :
    deserialize_response (encodeResponseWire ⟨3, .obj (.cons "health".data (.int 100) .nil), some ⟨-32000, "boom".data, some (.cons "k".data (.int 1) .nil)⟩⟩) =
      .ok ⟨3, .obj (.cons "health".data (.int 100) .nil), some ⟨-32000, "boom".data, some (.cons "k".data (.int 1) .nil)⟩⟩ := by
  apply c7_roundtrip
  · apply WfJson.obj
    apply WfMembers.cons _ _ _ ?_ (WfJson.int 100) WfMembers.nil
    intro c hc; fin_cases hc <;> decide
  · intro e he
    cases he
    constructor
    · intro c hc; fin_cases hc <;> decide
    · intro d hd
      cases hd
      apply WfMembers.cons _ _ _ ?_ (WfJson.int 1) WfMembers.nil
      intro c hc; fin_cases hc; decide
  · decide

/-- C10: decoding a framed JSON object treats a falsy `error` member
(`null`, `{}`, `0`, `""`, absent, …) as a successful response with error
field `None`; only a truthy object `error` member yields a non-`None`
error, whose missing `code`/`message` members are filled in by the
`dictGet` defaults `-32603` / `"Internal error"`; and conversely any
decoded non-`None` error came from a truthy object `error` member. -/
theorem c10_falsy_error_is_success (m : JsonMembers) (hm : WfMembers m)
    (hlen : (dumps (.obj m)).length < 4294967296) :
    (∀ i : Int, validateInt (dictGet m "id".data (.int 0)) = some i →
      (dictGet m "error".data .null).truthy = false →
      deserialize_response (frameBytes (dumps (.obj m))) =
        .ok ⟨i, dictGet m "result".data .null, none⟩) ∧
    (∀ (em : JsonMembers) (i c : Int) (msg : List Char) (d : Option JsonMembers),
      dictGet m "error".data .null = .obj em →
      (Json.obj em).truthy = true →
      validateInt (dictGet em "code".data (.int (-32603))) = some c →
      validateStr (dictGet em "message".data (.str "Internal error".data)) = some msg →
      validateOptDict (dictGet em "data".data .null) = some d →
      validateInt (dictGet m "id".data (.int 0)) = some i →
      deserialize_response (frameBytes (dumps (.obj m))) =
        .ok ⟨i, dictGet m "result".data .null, some ⟨c, msg, d⟩⟩) ∧
    (∀ resp : Response,
      deserialize_response (frameBytes (dumps (.obj m))) = .ok resp →
      resp.error ≠ none →
      (dictGet m "error".data .null).truthy = true ∧
      ∃ em, dictGet m "error".data .null = .obj em) := by
  refine ⟨?_, ?_, ?_⟩
  · intro i hid hfalsy
    rw [deserialize_dumps_obj m hm hlen, buildResponse_falsy m i hid hfalsy]
  · intro em i c msg d herr htr hc hmsg hd hid
    rw [deserialize_dumps_obj m hm hlen,
      buildResponse_truthy_obj m em c msg d i herr htr hc hmsg hd hid]
  · intro resp hdec hne
    rw [deserialize_dumps_obj m hm hlen] at hdec
    exact buildResponse_error_source m resp hdec hne

/-- Witness for C10: an empty-object `error` member (falsy) decodes with
error `None`; a truthy error object missing both `code` and `message`
decodes with the defaults `-32603` / `"Internal error"`. -/
theorem c10_falsy_error_is_success_witness :
    deserialize_response (frameBytes (dumps (.obj (.cons "id".data (.int 4) (.cons "error".data (.obj .nil) .nil))))) =
        .ok ⟨4, .null, none⟩ ∧
    deserialize_response (frameBytes (dumps (.obj (.cons "id".data (.int 4) (.cons "error".data (.obj (.cons "data".data .null .nil)) .nil))))) =
        .ok ⟨4, .null, some ⟨-32603, "Internal error".data, none⟩⟩ := by
  constructor
  · exact (c10_falsy_error_is_success
      (.cons "id".data (.int 4) (.cons "error".data (.obj .nil) .nil))
      (by
        apply WfMembers.cons _ _ _ ?_ (WfJson.int 4)
        · apply WfMembers.cons _ _ _ ?_ (WfJson.obj _ WfMembers.nil) WfMembers.nil
          intro c hc; fin_cases hc <;> decide
        · intro c hc; fin_cases hc <;> decide)
      (by decide)).1 4 (by decide) (by decide)
  · exact (c10_falsy_error_is_success
      (.cons "id".data (.int 4) (.cons "error".data (.obj (.cons "data".data .null .nil)) .nil))
      (by
        apply WfMembers.cons _ _ _ ?_ (WfJson.int 4)
        · apply WfMembers.cons _ _ _ ?_ (WfJson.obj _ ?_) WfMembers.nil
          · intro c hc; fin_cases hc <;> decide
          · apply WfMembers.cons _ _ _ ?_ WfJson.null WfMembers.nil
            intro c hc; fin_cases hc <;> decide
        · intro c hc; fin_cases hc <;> decide)
      (by decide)).2.1 (.cons "data".data .null .nil) 4 (-32603) "Internal error".data
        none (by decide) (by decide) (by decide) (by decide) (by decide) (by decide)
